import Mathlib

/-!
Shallow embedding of `create_roles_overview.py`, the Ansible-roles overview
generator.  The embedding covers the graph-building core: `get_yaml_content`
(metadata fetcher), `set_role_attributes` / `set_play_attributes` (attribute
extractors), `add_dependencies` (dependency linker) and
`generate_projects_data` (inventory builder with its reconciliation pass).

Python values parsed from YAML are modelled by the `Yaml` type below
(strings, lists, mappings and `None`; numeric and boolean scalars are not
modelled — no claim involves them).  Python dictionaries are modelled as
insertion-ordered association lists: assignment overwrites in place when the
key exists and appends otherwise, matching CPython dict semantics.  Fallible
Python code is modelled with `Except Err`; an uncaught exception or a
`sys.exit` aborts the run and is an `Except.error`.
-/

namespace CreateRolesOverview

/-- Python exceptions / exits that the script can raise.  `exit255` models
`sys.exit(255)`; `keyError`, `typeError` and `attrError` model the
corresponding uncaught Python exceptions. -/
inductive Err where
  | exit255
  | keyError (k : String)
  | typeError
  | attrError
  deriving DecidableEq, Repr

/-- Parsed YAML values as the script observes them: strings, lists,
mappings (insertion-ordered, unique keys) and `None`. -/
inductive Yaml where
  | null
  | str (s : String)
  | list (xs : List Yaml)
  | dict (kvs : List (String × Yaml))

/-- First value bound to key `k` in an association list (Python dict lookup). -/
def assocFind {β : Type} (l : List (String × β)) (k : String) : Option β :=
  (l.find? (fun p => p.1 == k)).map Prod.snd

/-- Python dict assignment `d[k] = v`: overwrite in place when `k` is
present, append at the end otherwise. -/
def assocSet {β : Type} : List (String × β) → String → β → List (String × β)
  | [], k, v => [(k, v)]
  | (k', v') :: rest, k, v =>
    if k' == k then (k, v) :: rest else (k', v') :: assocSet rest k v

/-- Python truthiness of a parsed YAML value (`if content:`). -/
def truthy : Yaml → Bool
  | .null => false
  | .str s => !(s == "")
  | .list xs => !xs.isEmpty
  | .dict kvs => !kvs.isEmpty

/-- Python `value[k]` for a string key: mapping lookup raising `KeyError`
when absent; indexing a list, a string or `None` with a string key raises
`TypeError`. -/
def getItem (y : Yaml) (k : String) : Except Err Yaml :=
  match y with
  | .dict kvs =>
    match assocFind kvs k with
    | some v => .ok v
    | none => .error (.keyError k)
  | _ => .error .typeError

/-- `true` when `needle` occurs contiguously inside the second list
(Python substring containment). -/
def isSubstrOfCL (needle : List Char) : List Char → Bool
  | [] => needle.isEmpty
  | c :: cs => needle.isPrefixOf (c :: cs) || isSubstrOfCL needle cs

/-- Python `k in value` for a string `k`: key test on a mapping, substring
test on a string, membership (against string elements) on a list,
`TypeError` on `None`. -/
def inOp (k : String) (y : Yaml) : Except Err Bool :=
  match y with
  | .dict kvs => .ok (kvs.any (fun p => p.1 == k))
  | .str s => .ok (isSubstrOfCL k.data s.data)
  | .list xs =>
    .ok (xs.any (fun v => match v with | .str s => s == k | _ => false))
  | .null => .error .typeError

/-- Python `len(value)`; `len(None)` raises `TypeError`. -/
def pyLen : Yaml → Except Err Nat
  | .str s => .ok s.length
  | .list xs => .ok xs.length
  | .dict kvs => .ok kvs.length
  | .null => .error .typeError

/-- Python `for x in value`: a list yields its elements, a string its
one-character substrings, a mapping its keys; iterating `None` raises
`TypeError`. -/
def pyIter : Yaml → Except Err (List Yaml)
  | .list xs => .ok xs
  | .str s => .ok (s.data.map (fun c => Yaml.str (String.mk [c])))
  | .dict kvs => .ok (kvs.map (fun p => Yaml.str p.1))
  | .null => .error .typeError

/-- Deletes every occurrence of `pat` from `s`, scanning left to right and
continuing after each removed occurrence — Python
`s.replace(pat, '')` for a nonempty `pat`.  Fuelled by the length of the
scanned list so the recursion is structural. -/
def replaceDelAux (pat : List Char) : Nat → List Char → List Char
  | _, [] => []
  | 0, s => s
  | Nat.succ n, c :: cs =>
    if pat.isPrefixOf (c :: cs) && !pat.isEmpty then
      replaceDelAux pat n ((c :: cs).drop pat.length)
    else
      c :: replaceDelAux pat n cs

/-- Python `s.replace(pat, '')` (the script only ever replaces with the
empty string). -/
def pyReplaceDel (s pat : String) : String :=
  String.mk (replaceDelAux pat.data s.data.length s.data)

/-- Matches a literal regex fragment against the front of a string, where
`'.'` in the fragment is the regex wildcard (any character; newlines are not
modelled), returning the unconsumed rest on success. -/
def patMatchPrefix : List Char → List Char → Option (List Char)
  | [], s => some s
  | _ :: _, [] => none
  | pc :: ps, c :: cs =>
    if pc == '.' || pc == c then patMatchPrefix ps cs else none

/-- Models `re.match(r'^git@{host}:(.+).git$', url)` and its group 1: the
whole url must start with `git@host:` (dots in `host` are regex wildcards,
as in the source's un-escaped format string), and the rest must consist of a
nonempty capture, one arbitrary character and the literal `git` at the very
end.  Returns the captured internal path, or `none` when the regex does not
match (in which case the script's `.group(1)` raises `AttributeError`). -/
def urlMatch (host url : String) : Option String :=
  match patMatchPrefix ("git@" ++ host ++ ":").data url.data with
  | none => none
  | some rest =>
    if 5 ≤ rest.length && rest.drop (rest.length - 3) == ['g', 'i', 't'] then
      some (String.mk (rest.take (rest.length - 4)))
    else
      none

/-- Models `re.match("^(.+)/[^/]+$", p)`: splits the character list at its
last `'/'`, returning `(prefix, suffix)`; `none` when no `'/'` occurs. -/
def lastSplit : List Char → Option (List Char × List Char)
  | [] => none
  | c :: cs =>
    match lastSplit cs with
    | some (a, b) => some (c :: a, b)
    | none => if c == '/' then some ([], cs) else none

/-- Group 1 of `re.match("^(.+)/[^/]+$", p)`: everything before the last
`'/'`, defined when that prefix is nonempty and the final segment is
nonempty (the final segment is `'/'`-free by construction).  `none` models
the failed match, on which the script's `.group(1)` raises
`AttributeError`. -/
def groupRe (p : String) : Option String :=
  match lastSplit p.data with
  | none => none
  | some (a, b) =>
    if !a.isEmpty && !b.isEmpty then some (String.mk a) else none

/-- Outcome of `project.repository_blob` followed by base64 decode and YAML
parse of the returned content.  Only the `GitlabHttpError` failure mode the
script catches is modelled; parse errors and other exception types would
propagate as a fatal crash and occur in no claim. -/
inductive BlobResult where
  | httpErr
  | content (y : Yaml)

/-- One entry of a directory listing, together with the outcome of fetching
its blob. -/
structure TreeItem where
  name : String
  blob : BlobResult

/-- Result of `project.repository_tree(path=..., ref=...)` for one directory
of one repository: a `GitlabHttpError`, a `GitlabGetError` (carrying its
message; the script only inspects the message to decide what to print), or
the directory listing. -/
inductive TreeResult where
  | httpErr
  | getErr (msg : String)
  | items (fs : List TreeItem)

/-- One repository as the script sees it.  `metaDir` and `rolesDir` are the
snapshot of what `repository_tree` returns for the `meta` and `roles`
directories at the default branch, together with the blob contents; `tags`
is the list of tag names returned by `project.tags.list()` in listing
order.  The summary object `p` and the full object `real_project` carry the
same attribute values, so a single record models both. -/
structure Project where
  pid : Nat
  name : String
  path_with_namespace : String
  archived : Bool
  ssh_url_to_repo : String
  web_url : String
  tags : List String
  metaDir : TreeResult
  rolesDir : TreeResult

/-- Embedding of `get_yaml_content(project, path, filename)`.  The directory
snapshot `dir` stands for `project.repository_tree(path=path, ref=...)`:
a `GitlabHttpError` there exits the run with status 255; a `GitlabGetError`
is traced and yields the empty content `{}`; with a listing, the first entry
named `filename` is fetched via `repository_blob` (a `GitlabHttpError` there
is traced and yields `{}`), and its decoded bytes are the parsed YAML
document.  An empty listing or an absent filename also yields `{}`. -/
def get_yaml_content (dir : TreeResult) (filename : String) : Except Err Yaml :=
  match dir with
  | .httpErr => .error .exit255
  | .getErr _ => .ok (Yaml.dict [])
  | .items fs =>
    if 0 < fs.length then
      match fs.find? (fun f => f.name == filename) with
      | none => .ok (Yaml.dict [])
      | some f =>
        match f.blob with
        | .httpErr => .ok (Yaml.dict [])
        | .content y => .ok y
    else
      .ok (Yaml.dict [])

/-- One entry of `projects_data`: the Python dict built by
`set_role_attributes`, `set_play_attributes` or the reconciliation pass.
`description`, `platforms` and `galaxy_tags` are `none` when the dict has no
such key (play entities omit them). -/
structure Entity where
  state : String
  name : String
  url : String
  web_url : String
  group : String
  description : Option Yaml
  platforms : Option Yaml
  galaxy_tags : Option Yaml
  git_tags : List String
  used_by : List String

/-- `content["galaxy_info"][k]` as the script evaluates it. -/
def giLookup (content : Yaml) (k : String) : Except Err Yaml :=
  match getItem content "galaxy_info" with
  | .ok gi => getItem gi k
  | .error e => .error e

/-- `try: v = r except KeyError: v = d` — a `KeyError` falls back to the
default, any other exception propagates. -/
def tryDefault (r : Except Err Yaml) (d : Yaml) : Except Err Yaml :=
  match r with
  | .ok v => .ok v
  | .error (.keyError _) => .ok d
  | .error e => .error e

/-- `true` when the computation failed with a `KeyError`. -/
def isKeyError (r : Except Err Yaml) : Bool :=
  match r with
  | .error (.keyError _) => true
  | _ => false

/-- Embedding of `set_role_attributes(project, content)`: pulls
`description`, `platforms` and `galaxy_tags` from `content["galaxy_info"]`
with a per-key `KeyError` fallback to `""` / `[]` / `[]`, fills the fixed
attributes from the project, derives `group` from the namespaced path
(raising `AttributeError` when the group regex does not match) and copies
the tag names.  `used_by` starts empty. -/
def set_role_attributes (project : Project) (content : Yaml) :
    Except Err Entity :=
  match tryDefault (giLookup content "description") (Yaml.str "") with
  | .error e => .error e
  | .ok description =>
    match tryDefault (giLookup content "platforms") (Yaml.list []) with
    | .error e => .error e
    | .ok platforms =>
      match tryDefault (giLookup content "galaxy_tags") (Yaml.list []) with
      | .error e => .error e
      | .ok galaxy_tags =>
        match groupRe project.path_with_namespace with
        | none => .error .attrError
        | some g =>
          .ok { state := "role"
                name := project.name
                url := project.ssh_url_to_repo
                web_url := project.web_url
                group := g
                description := some description
                platforms := some platforms
                galaxy_tags := some galaxy_tags
                git_tags := project.tags
                used_by := [] }

/-- Embedding of `set_play_attributes(project, content)`; the `content`
parameter is unused by the source as well.  The resulting dict has no
`description`, `platforms` or `galaxy_tags` keys. -/
def set_play_attributes (project : Project) (content : Yaml) :
    Except Err Entity :=
  match groupRe project.path_with_namespace with
  | none => .error .attrError
  | some g =>
    .ok { state := "play"
          name := project.name
          url := project.ssh_url_to_repo
          web_url := project.web_url
          group := g
          description := none
          platforms := none
          galaxy_tags := none
          git_tags := project.tags
          used_by := [] }

/-- `used_by_data`: maps a dependency target (canonical path or bare name)
to the ordered list of declaring project identities, insertion-ordered as a
Python dict. -/
abbrev EdgeTable := List (String × List String)

/-- The `try/except` around the edge append: if the target key exists,
append `prjid` unless it is already present; a `KeyError` creates the
entry `[prjid]`. -/
def recordEdge (tbl : EdgeTable) (key prjid : String) : EdgeTable :=
  match assocFind tbl key with
  | some l => if l.contains prjid then tbl else assocSet tbl key (l ++ [prjid])
  | none => assocSet tbl key [prjid]

/-- The body of the `for dep in dep_list` loop of `add_dependencies`,
running over the already-materialised iteration sequence.  An `include` key
breaks out of the loop.  Otherwise the target is the captured path of
`dep["src"]` (a failed regex match raises `AttributeError` via
`.group(1)`); on a `KeyError` for `src` the warning accesses `dep["name"]`
(so a missing `name` raises `KeyError`), the bare name becomes the target
and is appended to the external list.  Names that are not strings are not
modelled (a list or mapping there would raise `TypeError` as an unhashable
dict key; `None` keys do not occur in the claims).  The declaring identity
is then recorded, deduplicated, under the target key. -/
def addDepsLoop (gitlab_url projectName prjid : String) :
    List Yaml → EdgeTable → List String → Except Err (EdgeTable × List String)
  | [], tbl, ext => .ok (tbl, ext)
  | dep :: rest, tbl, ext =>
    match inOp "include" dep with
    | .error e => .error e
    | .ok true => .ok (tbl, ext)
    | .ok false =>
      match getItem dep "src" with
      | .ok (.str s) =>
        match urlMatch (pyReplaceDel gitlab_url "https://") s with
        | some path =>
          addDepsLoop gitlab_url projectName prjid rest (recordEdge tbl path prjid) ext
        | none => .error .attrError
      | .ok _ => .error .typeError
      | .error (.keyError _) =>
        match getItem dep "name" with
        | .ok (.str n) =>
          addDepsLoop gitlab_url projectName prjid rest (recordEdge tbl n prjid)
            (ext ++ [n])
        | .ok _ => .error .typeError
        | .error e => .error e
      | .error e => .error e

/-- Embedding of `add_dependencies(project, prjid, dep_list, used_by_data,
external)`: iterates the dependency document and threads the edge table and
the external-name list.  `gitlab_url` is the configured `GITLAB_URL`;
`projectName` is `project.name` (used only in diagnostics). -/
def add_dependencies (gitlab_url projectName prjid : String) (dep_list : Yaml)
    (used_by_data : EdgeTable) (external : List String) :
    Except Err (EdgeTable × List String) :=
  match pyIter dep_list with
  | .ok deps => addDepsLoop gitlab_url projectName prjid deps used_by_data external
  | .error e => .error e

/-- The mutable state accumulated by `generate_projects_data` during the
main traversal; `projects_external` models the source's `projects_extern`
list (renamed only because of a lexical restriction of this development). -/
structure BuildSt where
  projects_data : List (String × Entity)
  used_by_data : EdgeTable
  projects_mapping : List (String × String)
  projects_external : List String

/-- The state at the top of `generate_projects_data`. -/
def initSt : BuildSt :=
  { projects_data := [], used_by_data := [], projects_mapping := [],
    projects_external := [] }

/-- Terminal state of one pass of the per-filter processing block: `linked`
when a role or play was extracted, `skipped` on a symlinked metadata file,
`noMetadata` when neither file was found. -/
inductive Outcome where
  | linked
  | skipped
  | noMetadata
  deriving DecidableEq, Repr

/-- The processing block run for one repository under one matching path
filter (the body of `if re.match(path, p.path_with_namespace):`).  Besides
the updated state it reports the terminal `Outcome` of the pass and how
many metadata files were fetched (1 when `meta/main.yml` was consulted
only, 2 when `roles/requirements.yml` was consulted as well). -/
def processMatch (gitlab_url : String) (p : Project) (st : BuildSt) :
    Except Err (BuildSt × Outcome × Nat) :=
  let prjid := p.name ++ "-" ++ toString p.pid
  match get_yaml_content p.metaDir "main.yml" with
  | .error e => .error e
  | .ok content =>
    if truthy content then
      match content with
      | .str _ => .ok (st, .skipped, 1)
      | _ =>
        match set_role_attributes p content with
        | .error e => .error e
        | .ok attrs =>
          let st := { st with
            projects_data := assocSet st.projects_data prjid attrs
            projects_mapping :=
              assocSet st.projects_mapping p.path_with_namespace prjid }
          match inOp "dependencies" content with
          | .error e => .error e
          | .ok hasDeps =>
            if hasDeps then
              match getItem content "dependencies" with
              | .error e => .error e
              | .ok deps =>
                match pyLen deps with
                | .error e => .error e
                | .ok n =>
                  if 0 < n then
                    match add_dependencies gitlab_url p.name prjid deps
                        st.used_by_data st.projects_external with
                    | .error e => .error e
                    | .ok te =>
                      .ok ({ st with
                              used_by_data := te.1
                              projects_external := te.2 }, .linked, 1)
                  else
                    .ok (st, .linked, 1)
            else
              .ok (st, .linked, 1)
    else
      match get_yaml_content p.rolesDir "requirements.yml" with
      | .error e => .error e
      | .ok content =>
        if truthy content then
          match content with
          | .str _ => .ok (st, .skipped, 2)
          | _ =>
            match set_play_attributes p content with
            | .error e => .error e
            | .ok attrs =>
              let st := { st with
                projects_data := assocSet st.projects_data prjid attrs
                projects_mapping :=
                  assocSet st.projects_mapping p.path_with_namespace prjid }
              match add_dependencies gitlab_url p.name prjid content
                  st.used_by_data st.projects_external with
              | .error e => .error e
              | .ok te =>
                .ok ({ st with
                        used_by_data := te.1
                        projects_external := te.2 }, .linked, 2)
        else
          .ok (st, .noMetadata, 2)

/-- `for path in PATH_FILTERS:` for one repository: each filter whose regex
matches the namespaced path triggers one full pass of the processing block
(the source has no `break`, so several matching filters each process the
repository).  Each filter is modelled as its induced predicate
`fun s => re.match(pattern, s) is not None`.  The per-pass outcomes and
fetch counts are collected in order. -/
def processFilters (gitlab_url : String) (p : Project) :
    List (String → Bool) → BuildSt →
    Except Err (BuildSt × List (Outcome × Nat))
  | [], st => .ok (st, [])
  | f :: fs, st =>
    if f p.path_with_namespace then
      match processMatch gitlab_url p st with
      | .error e => .error e
      | .ok (st', o, n) =>
        match processFilters gitlab_url p fs st' with
        | .error e => .error e
        | .ok (st'', tr) => .ok (st'', (o, n) :: tr)
    else
      processFilters gitlab_url p fs st

/-- The main loop of `generate_projects_data` over the internal-visibility
project listing: archived projects are skipped with a trace; every other
project runs the per-filter processing.  The trace pairs each examined
non-archived project id with its per-pass outcomes. -/
def traverse (gitlab_url : String) (filters : List (String → Bool)) :
    List Project → BuildSt →
    Except Err (BuildSt × List (Nat × List (Outcome × Nat)))
  | [], st => .ok (st, [])
  | p :: ps, st =>
    if p.archived then
      traverse gitlab_url filters ps st
    else
      match processFilters gitlab_url p filters st with
      | .error e => .error e
      | .ok (st', tr) =>
        match traverse gitlab_url filters ps st' with
        | .error e => .error e
        | .ok (st'', rest) => .ok (st'', (p.pid, tr) :: rest)

/-- The dict literal built for an unresolved edge target during
reconciliation. -/
def placeholderEntity (target state : String) : Entity :=
  { state := state
    name := target
    url := ""
    web_url := ""
    group := "unknown"
    description := some (Yaml.str "unknown")
    platforms := some (Yaml.list [])
    galaxy_tags := some (Yaml.list [])
    git_tags := []
    used_by := [] }

/-- One iteration of the reconciliation loop for the edge-table pair
`(target, ids)` at loop counter `cnt`: resolve `target` through
`projects_mapping`; on a `KeyError` synthesize the placeholder id
`"zzz-unknown-" ++ cnt` and insert the placeholder dict (overwriting any
entity that already has that id, as Python dict assignment does); finally
assign `used_by = ids` on the entity at the chosen id (a missing id there
would be an uncaught `KeyError`). -/
def reconcileStep (mapping : List (String × String)) (external : List String)
    (data : List (String × Entity)) (cnt : Nat) (target : String)
    (ids : List String) : Except Err (List (String × Entity)) :=
  let stId : String × List (String × Entity) :=
    match assocFind mapping target with
    | some prjid => (prjid, data)
    | none =>
      let prjid := "zzz-unknown-" ++ toString cnt
      let state := if external.contains target then "role_extern" else "role_unknown"
      (prjid, assocSet data prjid (placeholderEntity target state))
  match assocFind stId.2 stId.1 with
  | some e => .ok (assocSet stId.2 stId.1 { e with used_by := ids })
  | none => .error (.keyError stId.1)

/-- The post-traversal reconciliation loop over `used_by_data.items()` in
insertion order; `cnt` increments once per pair, resolved or not. -/
def reconcile (mapping : List (String × String)) (external : List String) :
    List (String × Entity) → Nat → EdgeTable →
    Except Err (List (String × Entity))
  | data, _, [] => .ok data
  | data, cnt, (target, ids) :: rest =>
    match reconcileStep mapping external data cnt target ids with
    | .error e => .error e
    | .ok data' => reconcile mapping external data' (cnt + 1) rest

/-- Embedding of `generate_projects_data(gl)`: the main traversal over the
snapshot of internal-visibility projects followed by the reconciliation
pass, returning the completed `projects_data`. -/
def generate_projects_data (gitlab_url : String)
    (filters : List (String → Bool)) (projects : List Project) :
    Except Err (List (String × Entity)) :=
  match traverse gitlab_url filters projects initSt with
  | .error e => .error e
  | .ok (st, _) =>
    reconcile st.projects_mapping st.projects_external st.projects_data 0
      st.used_by_data

/-- Snapshot of the role repository `webserver` (id 12): `meta/main.yml`
holds `galaxy_info.description: "Installs nginx"` and no dependencies. -/
def webserverProject : Project :=
  { pid := 12, name := "webserver", path_with_namespace := "infra/webserver",
    archived := false,
    ssh_url_to_repo := "git@gitlab.example.com:infra/webserver.git",
    web_url := "https://gitlab.example.com/infra/webserver", tags := [],
    metaDir := .items [⟨"main.yml",
      .content (.dict [("galaxy_info",
        .dict [("description", .str "Installs nginx")])])⟩],
    rolesDir := .items [] }

/-- Snapshot of the play repository `site` (id 5): no `meta/main.yml`, and
`roles/requirements.yml` is a single-element list whose entry has the lone
key `src` with value `git@gitlab.example.com:infra/webserver.git`. -/
def siteProject : Project :=
  { pid := 5, name := "site", path_with_namespace := "infra/site",
    archived := false,
    ssh_url_to_repo := "git@gitlab.example.com:infra/site.git",
    web_url := "https://gitlab.example.com/infra/site", tags := [],
    metaDir := .items [],
    rolesDir := .items [⟨"requirements.yml",
      .content (.list [.dict
        [("src", .str "git@gitlab.example.com:infra/webserver.git")]])⟩] }

/-- A single configured path filter matching the `infra/` namespace. -/
def scenarioFilters : List (String → Bool) :=
  [fun s => "infra/".data.isPrefixOf s.data]

/-- Snapshot of a play repository whose name is literally `zzz-unknown`
(id 0), declaring one `src`-less dependency named `foo`.  Its identity
`zzz-unknown-0` has exactly the shape of the first synthetic placeholder
identity. -/
def zzzProject : Project :=
  { pid := 0, name := "zzz-unknown", path_with_namespace := "grp/zzz-unknown",
    archived := false,
    ssh_url_to_repo := "git@gitlab.example.com:grp/zzz-unknown.git",
    web_url := "https://gitlab.example.com/grp/zzz-unknown", tags := [],
    metaDir := .items [],
    rolesDir := .items [⟨"requirements.yml",
      .content (.list [.dict [("name", .str "foo")]])⟩] }

/-- Snapshot of a play repository declaring a dependency whose `src` is a
GitHub https url, which the configured-host regex does not match. -/
def githubDepProject : Project :=
  { pid := 7, name := "play1", path_with_namespace := "infra/play1",
    archived := false,
    ssh_url_to_repo := "git@gitlab.example.com:infra/play1.git",
    web_url := "https://gitlab.example.com/infra/play1", tags := [],
    metaDir := .items [],
    rolesDir := .items [⟨"requirements.yml",
      .content (.list [.dict
        [("src", .str "https://github.com/geerlingguy/ansible-role-nginx.git")]])⟩] }

/-- Snapshot of a repository with no metadata files at all: both directory
listings are empty. -/
def emptyProject : Project :=
  { pid := 1, name := "empty", path_with_namespace := "grp/empty",
    archived := false,
    ssh_url_to_repo := "git@gitlab.example.com:grp/empty.git",
    web_url := "https://gitlab.example.com/grp/empty", tags := [],
    metaDir := .items [], rolesDir := .items [] }

/-- Snapshot of a repository whose namespaced path contains no `/`
separator, so the group regex of the attribute extractors cannot match. -/
def noGroupProject : Project :=
  { pid := 3, name := "flat", path_with_namespace := "flat",
    archived := false,
    ssh_url_to_repo := "git@gitlab.example.com:flat.git",
    web_url := "https://gitlab.example.com/flat", tags := [],
    metaDir := .items [⟨"main.yml", .content (.dict [("galaxy_info",
      .dict [("description", .str "d")])])⟩],
    rolesDir := .items [] }

/-- The per-list no-duplicates invariant of the edge table. -/
def tableNodup (tbl : EdgeTable) : Prop :=
  ∀ kv ∈ tbl, List.Nodup kv.2

theorem assocFind_assocSet_self {β : Type} (k : String) (v : β) :
    ∀ l : List (String × β), assocFind (assocSet l k v) k = some v := by
  intro l
  induction l with
  | nil => simp [assocSet, assocFind]
  | cons hd tl ih =>
    obtain ⟨k', v'⟩ := hd
    by_cases h : k' == k
    · simp [assocSet, h, assocFind]
    · simp only [assocSet, h, Bool.false_eq_true, if_false]
      simpa [assocFind, List.find?_cons, h] using ih

theorem mem_assocSet {β : Type} (k : String) (v : β) :
    ∀ (l : List (String × β)) (kv : String × β),
    kv ∈ assocSet l k v → kv ∈ l ∨ kv = (k, v) := by
  intro l
  induction l with
  | nil =>
    intro kv h
    simp [assocSet] at h
    right
    exact h
  | cons hd tl ih =>
    intro kv h
    obtain ⟨k', v'⟩ := hd
    by_cases hk : k' == k
    · simp only [assocSet, hk, if_true] at h
      rcases List.mem_cons.mp h with h | h
      · right; exact h
      · left; exact List.mem_cons_of_mem _ h
    · simp only [assocSet, hk, Bool.false_eq_true, if_false] at h
      rcases List.mem_cons.mp h with h | h
      · left; exact h ▸ List.mem_cons_self _ _
      · rcases ih kv h with h' | h'
        · left; exact List.mem_cons_of_mem _ h'
        · right; exact h'

theorem assocFind_eq_some_mem {β : Type} {l : List (String × β)} {k : String}
    {v : β} (h : assocFind l k = some v) : ∃ kk, (kk, v) ∈ l := by
  unfold assocFind at h
  cases hf : l.find? (fun p => p.1 == k) with
  | none => rw [hf] at h; exact absurd h (by simp)
  | some kv =>
    rw [hf] at h
    simp only [Option.map_some'] at h
    refine ⟨kv.1, ?_⟩
    have hm := List.mem_of_find?_eq_some hf
    have h2 : kv.2 = v := by injection h
    rw [← h2]
    simpa using hm

theorem assocSet_eq_append {β : Type} (k : String) (v : β) :
    ∀ l : List (String × β), assocFind l k = none →
    assocSet l k v = l ++ [(k, v)] := by
  intro l
  induction l with
  | nil => intro _; rfl
  | cons hd tl ih =>
    intro h
    obtain ⟨k', v'⟩ := hd
    by_cases hk : k' == k
    · exact absurd h (by simp [assocFind, List.find?_cons, hk])
    · simp only [assocSet, hk, Bool.false_eq_true, if_false, List.cons_append,
        List.cons.injEq, true_and]
      refine ih ?_
      simpa [assocFind, List.find?_cons, hk] using h

theorem assocSet_assocSet {β : Type} (k : String) (v v' : β) :
    ∀ l : List (String × β),
    assocSet (assocSet l k v) k v' = assocSet l k v' := by
  intro l
  induction l with
  | nil => simp [assocSet]
  | cons hd tl ih =>
    obtain ⟨k', v''⟩ := hd
    by_cases hk : k' == k
    · simp [assocSet, hk]
    · simp [assocSet, hk, ih]

theorem recordEdge_nodup {tbl : EdgeTable} {key pid : String}
    (h : tableNodup tbl) : tableNodup (recordEdge tbl key pid) := by
  unfold recordEdge
  cases hf : assocFind tbl key with
  | none =>
    intro kv hkv
    rcases mem_assocSet _ _ _ _ hkv with hm | he
    · exact h kv hm
    · rw [he]; simp
  | some l =>
    change tableNodup
      (if l.contains pid = true then tbl else assocSet tbl key (l ++ [pid]))
    by_cases hc : l.contains pid = true
    · rw [if_pos hc]; exact h
    · rw [if_neg hc]
      intro kv hkv
      rcases mem_assocSet _ _ _ _ hkv with hm | he
      · exact h kv hm
      · rw [he]
        obtain ⟨kk, hkk⟩ := assocFind_eq_some_mem hf
        have hl : l.Nodup := h (kk, l) hkk
        have hp : pid ∉ l := fun hmem => hc (List.elem_eq_true_of_mem hmem)
        simp [List.nodup_append, hl, hp]

theorem addDepsLoop_nodup (u pn pid : String) :
    ∀ (deps : List Yaml) (tbl : EdgeTable) (ext : List String)
      (tbl' : EdgeTable) (ext' : List String),
    tableNodup tbl →
    addDepsLoop u pn pid deps tbl ext = .ok (tbl', ext') →
    tableNodup tbl' := by
  intro deps
  induction deps with
  | nil =>
    intro tbl ext tbl' ext' h he
    simp only [addDepsLoop] at he
    injection he with hp
    cases hp
    exact h
  | cons dep rest ih =>
    intro tbl ext tbl' ext' h he
    simp only [addDepsLoop] at he
    repeat' split at he
    all_goals try exact Except.noConfusion he
    all_goals try (injection he with hp; cases hp; exact h)
    all_goals exact ih _ _ _ _ (recordEdge_nodup h) he

theorem addDepsLoop_break_of_include (u pn pid : String) (d : Yaml)
    (post : List Yaml) (hd : inOp "include" d = .ok true) :
    ∀ (pre : List Yaml) (tbl : EdgeTable) (ext : List String),
    addDepsLoop u pn pid (pre ++ d :: post) tbl ext =
      addDepsLoop u pn pid pre tbl ext := by
  intro pre
  induction pre with
  | nil =>
    intro tbl ext
    simp only [List.nil_append, addDepsLoop, hd]
  | cons a pre ih =>
    intro tbl ext
    simp only [List.cons_append, addDepsLoop]
    repeat' split
    all_goals first | rfl | exact ih _ _

theorem lastSplit_eq_none : ∀ l : List Char, '/' ∉ l → lastSplit l = none := by
  intro l
  induction l with
  | nil => intro _; rfl
  | cons c cs ih =>
    intro h
    have hc : c ≠ '/' := fun hc => h (hc ▸ List.mem_cons_self _ _)
    have hcs : '/' ∉ cs := fun hm => h (List.mem_cons_of_mem _ hm)
    simp [lastSplit, ih hcs, hc]

theorem groupRe_eq_none {p : String} (h : '/' ∉ p.data) : groupRe p = none := by
  simp [groupRe, lastSplit_eq_none p.data h]

theorem tryDefault_of_isKeyError {r : Except Err Yaml} {d : Yaml}
    (h : isKeyError r = true) : tryDefault r d = .ok d := by
  cases r with
  | ok v => exact absurd h (by simp [isKeyError])
  | error e =>
    cases e with
    | keyError k => rfl
    | exit255 => exact absurd h (by simp [isKeyError])
    | typeError => exact absurd h (by simp [isKeyError])
    | attrError => exact absurd h (by simp [isKeyError])

/-- C1: when a dependency list contains an entry with an `include` key,
`add_dependencies` abandons the list at the first such entry: the result
equals the run on the entries before the include alone, so no edge is
recorded for the include entry or anything after it, and the earlier edges
are exactly those of the prefix run. -/
theorem c1_include_abandons (u pn pid : String) (pre post : List Yaml)
    (d : Yaml) (tbl : EdgeTable) (ext : List String)
    (hd : inOp "include" d = .ok true) :
    add_dependencies u pn pid (Yaml.list (pre ++ d :: post)) tbl ext =
      add_dependencies u pn pid (Yaml.list pre) tbl ext := by
  simp only [add_dependencies, pyIter]
  exact addDepsLoop_break_of_include u pn pid d post hd pre tbl ext

/-- Witness for C1 at a concrete dependency list whose second entry is an
include directive. -/
theorem c1_include_abandons_witness :
    inOp "include" (Yaml.dict [("include", Yaml.str "./other.yml")]) =
      .ok true ∧
    add_dependencies "https://gitlab.example.com" "site" "site-5"
        (Yaml.list
          ([Yaml.dict [("src", Yaml.str "git@gitlab.example.com:infra/a.git")]] ++
            Yaml.dict [("include", Yaml.str "./other.yml")] ::
              [Yaml.dict [("name", Yaml.str "skipped.role")]])) [] [] =
      add_dependencies "https://gitlab.example.com" "site" "site-5"
        (Yaml.list
          [Yaml.dict [("src", Yaml.str "git@gitlab.example.com:infra/a.git")]])
        [] [] :=
  ⟨rfl, c1_include_abandons _ _ _ _ _ _ _ _ rfl⟩

/-- C5 counterexample: quantified over EVERY prior edge-table state the
claim fails, because `add_dependencies` never cleans a duplicate already
present in the table: with an empty dependency list the table
containing the duplicated identity `a` is returned unchanged. -/
theorem c5_counterexample :
    add_dependencies "https://gitlab.example.com" "n" "a" (Yaml.list [])
        [("t", ["a", "a"])] [] = .ok ([("t", ["a", "a"])], []) ∧
    ¬ List.Nodup ["a", "a"] :=
  ⟨rfl, by decide⟩

/-- C5 amended: provided no target list of the prior edge table contains a
duplicate (true of every table the script actually builds, starting from
the empty one), `add_dependencies` preserves that invariant: the same
identity is never appended twice for the same target. -/
theorem c5_amended_no_duplicates (u pn pid : String) (dep_list : Yaml)
    (tbl : EdgeTable) (ext : List String) (tbl' : EdgeTable)
    (ext' : List String) (hinv : tableNodup tbl)
    (h : add_dependencies u pn pid dep_list tbl ext = .ok (tbl', ext')) :
    tableNodup tbl' := by
  unfold add_dependencies at h
  cases hit : pyIter dep_list with
  | error e => rw [hit] at h; exact Except.noConfusion h
  | ok deps =>
    rw [hit] at h
    exact addDepsLoop_nodup u pn pid deps tbl ext tbl' ext' hinv h

/-- Witness for the amended C5: a table with one prior identity stays
duplicate-free after a repository re-declares a dependency on it. -/
theorem c5_amended_no_duplicates_witness :
    tableNodup [("t", ["x"])] ∧
    add_dependencies "https://gitlab.example.com" "site" "site-5"
        (Yaml.list [Yaml.dict [("src", Yaml.str "git@gitlab.example.com:t.git")]])
        [("t", ["x"])] [] = .ok ([("t", ["x", "site-5"])], []) ∧
    tableNodup [("t", ["x", "site-5"])] := by
  have h1 : tableNodup [("t", ["x"])] := by simp [tableNodup]
  exact ⟨h1, rfl,
    c5_amended_no_duplicates "https://gitlab.example.com" "site" "site-5"
      (Yaml.list [Yaml.dict [("src", Yaml.str "git@gitlab.example.com:t.git")]])
      [("t", ["x"])] [] [("t", ["x", "site-5"])] [] h1 rfl⟩

/-- C6: a dependency entry without a `src` key (but with a `name` and no
`include`) does not fail: the bare name becomes the target key and is
appended to the external set; and at reconciliation an unresolved target
recorded as external yields a synthetic placeholder entity carrying the
name, the external kind `role_extern` and the declaring identities in
`used_by`. -/
theorem c6_no_src_external :
    (∀ (u pn pid n : String) (kvs : List (String × Yaml)) (tbl : EdgeTable)
       (ext : List String),
      kvs.any (fun q => q.1 == "include") = false →
      assocFind kvs "src" = none →
      assocFind kvs "name" = some (Yaml.str n) →
      add_dependencies u pn pid (Yaml.list [Yaml.dict kvs]) tbl ext =
        .ok (recordEdge tbl n pid, ext ++ [n])) ∧
    (∀ (mapping : List (String × String)) (external : List String)
       (data : List (String × Entity)) (cnt : Nat) (n : String)
       (ids : List String),
      assocFind mapping n = none →
      external.contains n = true →
      (reconcileStep mapping external data cnt n ids).map
          (fun d => (assocFind d ("zzz-unknown-" ++ toString cnt)).map
            (fun e => (e.name, e.state, e.used_by))) =
        .ok (some (n, "role_extern", ids))) := by
  constructor
  · intro u pn pid n kvs tbl ext hinc hsrc hname
    simp [add_dependencies, pyIter, addDepsLoop, inOp, getItem, hinc, hsrc,
      hname]
  · intro mapping external data cnt n ids hmap hext
    have hmem : n ∈ external := by simpa using hext
    simp [reconcileStep, hmap, hmem, assocFind_assocSet_self,
      placeholderEntity, Except.map]

/-- Witness for C6 at the dependency entry with the lone key `name` valued
`community.general`. -/
theorem c6_no_src_external_witness :
    (([("name", Yaml.str "community.general")] : List (String × Yaml)).any
        (fun q => q.1 == "include")) = false ∧
    assocFind ([("name", Yaml.str "community.general")] : List (String × Yaml))
      "src" = none ∧
    assocFind ([("name", Yaml.str "community.general")] : List (String × Yaml))
      "name" = some (Yaml.str "community.general") ∧
    add_dependencies "https://gitlab.example.com" "site" "site-5"
        (Yaml.list [Yaml.dict [("name", Yaml.str "community.general")]]) [] [] =
      .ok (recordEdge [] "community.general" "site-5",
        [] ++ ["community.general"]) ∧
    (reconcileStep [] ["community.general"] [] 0 "community.general"
          ["site-5"]).map
        (fun d => (assocFind d ("zzz-unknown-" ++ toString 0)).map
          (fun e => (e.name, e.state, e.used_by))) =
      .ok (some ("community.general", "role_extern", ["site-5"])) :=
  ⟨rfl, rfl, rfl,
   c6_no_src_external.1 _ _ _ _ _ _ _ rfl rfl rfl,
   c6_no_src_external.2 _ _ _ _ _ _ rfl rfl⟩

/-- C7: `set_role_attributes` defaults `description` to the empty string
and `platforms` / `galaxy_tags` to the empty list whenever the respective
`galaxy_info` lookup raises only a `KeyError` (missing key is not an
error); `used_by` starts empty and `group` is the namespaced path with the
final segment stripped.  When the path contains no `/` separator the
extraction never succeeds (the group regex match fails and the script dies
on `AttributeError`). -/
theorem c7_role_attribute_defaults :
    (∀ (p : Project) (kvs : List (String × Yaml)) (g : String),
      groupRe p.path_with_namespace = some g →
      isKeyError (giLookup (Yaml.dict kvs) "description") = true →
      isKeyError (giLookup (Yaml.dict kvs) "platforms") = true →
      isKeyError (giLookup (Yaml.dict kvs) "galaxy_tags") = true →
      (set_role_attributes p (Yaml.dict kvs)).map
          (fun e =>
            (e.description, e.platforms, e.galaxy_tags, e.used_by, e.group)) =
        .ok (some (Yaml.str ""), some (Yaml.list []), some (Yaml.list []),
          [], g)) ∧
    (∀ (p : Project) (content : Yaml) (e : Entity),
      '/' ∉ p.path_with_namespace.data →
      set_role_attributes p content ≠ .ok e) := by
  constructor
  · intro p kvs g hg h1 h2 h3
    unfold set_role_attributes
    rw [tryDefault_of_isKeyError h1, tryDefault_of_isKeyError h2,
      tryDefault_of_isKeyError h3, hg]
    rfl
  · intro p content e hns hcontra
    have hg := groupRe_eq_none hns
    unfold set_role_attributes at hcontra
    rw [hg] at hcontra
    repeat' split at hcontra
    all_goals simp_all

/-- Witness for C7: a role metadata document with no `galaxy_info` at all
gets all three defaults, and a repository with the separator-free path
`flat` cannot be extracted. -/
theorem c7_role_attribute_defaults_witness :
    groupRe webserverProject.path_with_namespace = some "infra" ∧
    isKeyError (giLookup (Yaml.dict []) "description") = true ∧
    isKeyError (giLookup (Yaml.dict []) "platforms") = true ∧
    isKeyError (giLookup (Yaml.dict []) "galaxy_tags") = true ∧
    (set_role_attributes webserverProject (Yaml.dict [])).map
        (fun e =>
          (e.description, e.platforms, e.galaxy_tags, e.used_by, e.group)) =
      .ok (some (Yaml.str ""), some (Yaml.list []), some (Yaml.list []),
        [], "infra") ∧
    '/' ∉ noGroupProject.path_with_namespace.data ∧
    set_role_attributes noGroupProject (Yaml.dict []) ≠
      .ok (placeholderEntity "x" "role") :=
  ⟨rfl, rfl, rfl, rfl,
   c7_role_attribute_defaults.1 _ _ _ rfl rfl rfl rfl,
   by decide,
   c7_role_attribute_defaults.2 _ _ _ (by decide)⟩

/-- C3 counterexample: a failure while retrieving the file blob itself does
NOT abort the run with status 255 — `get_yaml_content` traces the error and
returns the empty content; likewise a non-not-found `GitlabGetError`
during the directory listing returns empty instead of aborting. -/
theorem c3_counterexample :
    get_yaml_content (TreeResult.items [⟨"main.yml", BlobResult.httpErr⟩])
      "main.yml" = .ok (Yaml.dict []) ∧
    get_yaml_content (TreeResult.getErr "500 Internal Server Error")
      "main.yml" = .ok (Yaml.dict []) ∧
    get_yaml_content (TreeResult.items [⟨"main.yml", BlobResult.httpErr⟩])
      "main.yml" ≠ .error .exit255 := by
  refine ⟨rfl, rfl, ?_⟩
  intro h
  rw [show get_yaml_content
      (TreeResult.items [⟨"main.yml", BlobResult.httpErr⟩]) "main.yml" =
      .ok (Yaml.dict []) from rfl] at h
  exact Except.noConfusion h

/-- C3 amended: `get_yaml_content` returns empty content when the directory
listing raises a `GitlabGetError` (the not-found condition and any other
get error alike), when the listing is empty or lacks the filename, and also
when the blob retrieval itself fails with a `GitlabHttpError`; only a
`GitlabHttpError` while listing the directory aborts the run with exit
status 255.  A successfully fetched blob yields its parsed document. -/
theorem c3_amended_fetch (filename msg : String) (fs : List TreeItem)
    (f : TreeItem) (y : Yaml) :
    get_yaml_content .httpErr filename = .error .exit255 ∧
    get_yaml_content (.getErr msg) filename = .ok (Yaml.dict []) ∧
    get_yaml_content (.items []) filename = .ok (Yaml.dict []) ∧
    (fs.find? (fun t => t.name == filename) = none →
      get_yaml_content (.items fs) filename = .ok (Yaml.dict [])) ∧
    (fs.find? (fun t => t.name == filename) = some f → f.blob = .httpErr →
      get_yaml_content (.items fs) filename = .ok (Yaml.dict [])) ∧
    (fs.find? (fun t => t.name == filename) = some f → f.blob = .content y →
      get_yaml_content (.items fs) filename = .ok y) := by
  refine ⟨rfl, rfl, rfl, ?_, ?_, ?_⟩
  · intro h
    cases fs with
    | nil => rfl
    | cons a l => simp [get_yaml_content, h]
  · intro h hb
    cases fs with
    | nil => exact Option.noConfusion h
    | cons a l => simp [get_yaml_content, h, hb]
  · intro h hb
    cases fs with
    | nil => exact Option.noConfusion h
    | cons a l => simp [get_yaml_content, h, hb]

/-- Witness for the amended C3 at a one-entry listing whose blob fetch
fails. -/
theorem c3_amended_fetch_witness :
    ([⟨"main.yml", BlobResult.httpErr⟩] : List TreeItem).find?
      (fun t => t.name == "main.yml") = some ⟨"main.yml", .httpErr⟩ ∧
    (⟨"main.yml", BlobResult.httpErr⟩ : TreeItem).blob = .httpErr ∧
    get_yaml_content (.items [⟨"main.yml", BlobResult.httpErr⟩]) "main.yml" =
      .ok (Yaml.dict []) :=
  ⟨rfl, rfl,
   (c3_amended_fetch "main.yml" "m" [⟨"main.yml", .httpErr⟩]
      ⟨"main.yml", .httpErr⟩ Yaml.null).2.2.2.2.1 rfl rfl⟩

/-- C2 counterexample: the synthetic placeholder identity CAN collide with
a discovered entity's identity.  A play repository literally named
`zzz-unknown` with id 0 has identity `zzz-unknown-0`; its unresolved
external dependency `foo` is reconciled under the same identity
`zzz-unknown-0`, so no new entity is created — the placeholder overwrites
the discovered play (the final set has a single entity, now named `foo`). -/
theorem c2_counterexample :
    (traverse "https://gitlab.example.com" [fun _ => true] [zzzProject]
        initSt).map
      (fun r => (r.1.projects_data.map Prod.fst,
        (assocFind r.1.projects_data "zzz-unknown-0").map Entity.name,
        r.1.used_by_data, r.1.projects_external)) =
      .ok (["zzz-unknown-0"], some "zzz-unknown",
        [("foo", ["zzz-unknown-0"])], ["foo"]) ∧
    (generate_projects_data "https://gitlab.example.com" [fun _ => true]
        [zzzProject]).map
      (fun d => (d.length, (assocFind d "zzz-unknown-0").map
        (fun e => (e.name, e.state, e.used_by)))) =
      .ok (1, some ("foo", "role_extern", ["zzz-unknown-0"])) :=
  ⟨rfl, rfl⟩

/-- C2 amended: each edge-table pair `(target, ids)` is reconciled as the
claim states, except that the placeholder identity is only fresh when no
existing entity already carries `zzz-unknown-` followed by the running
counter: a resolved target gets `used_by := ids` by direct overwrite of
the mapped entity; an unresolved target whose synthetic identity is not yet
a key gets exactly one new appended placeholder entity with the claimed
kind, empty `url`/`web_url` and `used_by = ids`. -/
theorem c2_amended_reconcile :
    (∀ (mapping : List (String × String)) (external : List String)
       (data : List (String × Entity)) (cnt : Nat) (target : String)
       (ids : List String) (pk : String) (e : Entity),
      assocFind mapping target = some pk →
      assocFind data pk = some e →
      reconcileStep mapping external data cnt target ids =
        .ok (assocSet data pk { e with used_by := ids })) ∧
    (∀ (mapping : List (String × String)) (external : List String)
       (data : List (String × Entity)) (cnt : Nat) (target : String)
       (ids : List String),
      assocFind mapping target = none →
      assocFind data ("zzz-unknown-" ++ toString cnt) = none →
      reconcileStep mapping external data cnt target ids =
        .ok (data ++ [(("zzz-unknown-" ++ toString cnt),
          { (placeholderEntity target
              (if external.contains target then "role_extern"
               else "role_unknown")) with
            used_by := ids })])) := by
  constructor
  · intro mapping external data cnt target ids pk e hm hd
    simp [reconcileStep, hm, hd]
  · intro mapping external data cnt target ids hm hfresh
    simp only [reconcileStep, hm]
    rw [assocFind_assocSet_self]
    simp only [assocSet_assocSet]
    rw [assocSet_eq_append _ _ _ hfresh]

/-- Witness for the amended C2: a resolved target is overwritten in place;
a fresh unresolved target appends exactly one placeholder. -/
theorem c2_amended_reconcile_witness :
    assocFind ([("infra/webserver", "webserver-12")] : List (String × String))
      "infra/webserver" = some "webserver-12" ∧
    assocFind [("webserver-12", placeholderEntity "w" "role")] "webserver-12" =
      some (placeholderEntity "w" "role") ∧
    reconcileStep [("infra/webserver", "webserver-12")] []
        [("webserver-12", placeholderEntity "w" "role")] 0 "infra/webserver"
        ["site-5"] =
      .ok (assocSet [("webserver-12", placeholderEntity "w" "role")]
        "webserver-12" { placeholderEntity "w" "role" with
          used_by := ["site-5"] }) ∧
    assocFind ([] : List (String × String)) "foo" = none ∧
    assocFind ([] : List (String × Entity)) ("zzz-unknown-" ++ toString 0) =
      none ∧
    reconcileStep [] ["x"] [] 0 "foo" ["site-5"] =
      .ok ([] ++ [(("zzz-unknown-" ++ toString 0),
        { (placeholderEntity "foo"
            (if (["x"] : List String).contains "foo" then "role_extern"
             else "role_unknown")) with
          used_by := ["site-5"] })]) :=
  ⟨rfl, rfl,
   c2_amended_reconcile.1 _ _ _ _ _ _ _ _ rfl rfl,
   rfl, rfl,
   c2_amended_reconcile.2 [] ["x"] [] 0 "foo" ["site-5"] rfl rfl⟩

/-- C4 counterexample: a repository whose namespaced path matches two
configured filters is processed once per matching filter (the source's
filter loop has no break), so its role metadata file is fetched twice even
though role metadata is present, and two terminal outcomes are traced. -/
theorem c4_counterexample :
    (traverse "https://gitlab.example.com"
        [fun _ => true, fun s => "infra".data.isPrefixOf s.data]
        [webserverProject] initSt).map (fun r => r.2) =
      .ok [(12, [(Outcome.linked, 1), (Outcome.linked, 1)])] ∧
    (get_yaml_content webserverProject.metaDir "main.yml").map truthy =
      .ok true :=
  ⟨rfl, rfl⟩

/-- C4 amended: each pass of the processing block reaches exactly one
terminal outcome and fetches at most two metadata files, exactly one when
the role metadata fetch yielded truthy content; and a repository is
processed once per matching filter (logical OR across filters, but without
deduplication of multiple matches). -/
theorem c4_amended_processing :
    (∀ (u : String) (p : Project) (st : BuildSt) (r : BuildSt × Outcome × Nat),
      processMatch u p st = .ok r →
      (r.2.2 = 1 ∨ r.2.2 = 2) ∧
      (∀ c, get_yaml_content p.metaDir "main.yml" = .ok c →
        truthy c = true → r.2.2 = 1)) ∧
    (∀ (u : String) (p : Project) (fs : List (String → Bool)) (st : BuildSt)
       (res : BuildSt × List (Outcome × Nat)),
      processFilters u p fs st = .ok res →
      res.2.length = fs.countP (fun f => f p.path_with_namespace)) := by
  constructor
  · intro u p st r h
    constructor
    · simp only [processMatch] at h
      repeat' split at h
      all_goals first
        | exact Except.noConfusion h
        | (cases h; simp; done)
        | (injection h with h2; cases h2; simp; done)
        | (simp_all; done)
        | (split at h <;>
            first
              | exact Except.noConfusion h
              | (injection h with h2; cases h2; simp; done)
              | (simp_all; done))
    · intro c hc htr
      simp only [processMatch] at h
      rw [hc] at h
      repeat' split at h
      all_goals first
        | exact Except.noConfusion h
        | (cases h; simp; done)
        | (injection h with h2; cases h2; simp; done)
        | (simp_all; done)
        | (split at h <;>
            first
              | exact Except.noConfusion h
              | (injection h with h2; cases h2; simp; done)
              | (simp_all; done))
  · intro u p fs
    induction fs with
    | nil =>
      intro st res h
      simp only [processFilters] at h
      injection h with h'
      cases h'
      simp
    | cons f fs ih =>
      intro st res h
      simp only [processFilters] at h
      by_cases hf : f p.path_with_namespace = true
      · rw [if_pos hf] at h
        split at h
        · exact Except.noConfusion h
        · split at h
          · exact Except.noConfusion h
          · injection h with h'
            cases h'
            have hlen := ih _ _ (by assumption)
            simp [List.countP_cons, hf, hlen]
      · rw [if_neg hf] at h
        simp [List.countP_cons, hf, ih st res h]

/-- Witness for the amended C4 at a repository with no metadata and two
always-matching filters. -/
theorem c4_amended_processing_witness :
    processMatch "u" emptyProject initSt =
      .ok (initSt, Outcome.noMetadata, 2) ∧
    ((initSt, Outcome.noMetadata, 2).2.2 = 1 ∨
      (initSt, Outcome.noMetadata, 2).2.2 = 2) ∧
    processFilters "u" emptyProject [fun _ => true, fun _ => true] initSt =
      .ok (initSt, [(Outcome.noMetadata, 2), (Outcome.noMetadata, 2)]) ∧
    ([(Outcome.noMetadata, 2), (Outcome.noMetadata, 2)] :
        List (Outcome × Nat)).length =
      ([fun _ => true, fun _ => true] : List (String → Bool)).countP
        (fun f => f emptyProject.path_with_namespace) :=
  ⟨rfl,
   (c4_amended_processing.1 "u" emptyProject initSt _ rfl).1,
   rfl,
   c4_amended_processing.2 "u" emptyProject [fun _ => true, fun _ => true]
     initSt _ rfl⟩

/-- C8: in the two-repository snapshot, after the traversal the entity
`webserver-12` has kind `role` with empty `used_by` and the edge table is
exactly the single pair mapping `infra/webserver` to `["site-5"]`; after
reconciliation `used_by` of `webserver-12` equals `["site-5"]`. -/
theorem c8_scenario :
    (traverse "https://gitlab.example.com" scenarioFilters
        [webserverProject, siteProject] initSt).map
      (fun r => ((assocFind r.1.projects_data "webserver-12").map
        (fun e => (e.state, e.used_by)), r.1.used_by_data)) =
      .ok (some ("role", []), [("infra/webserver", ["site-5"])]) ∧
    (generate_projects_data "https://gitlab.example.com" scenarioFilters
        [webserverProject, siteProject]).map
      (fun d => (assocFind d "webserver-12").map Entity.used_by) =
      .ok (some ["site-5"]) :=
  ⟨rfl, rfl⟩

/-- C9: the embedded build is a pure function of the snapshot, so two runs
against equal inputs produce equal entity sets (identical outright, hence
in particular identical up to placeholder numbering). -/
theorem c9_deterministic (u : String) (fs : List (String → Bool))
    (ps1 ps2 : List Project) (h : ps1 = ps2) :
    generate_projects_data u fs ps1 = generate_projects_data u fs ps2 := by
  rw [h]

/-- Witness for C9 on the two-repository snapshot. -/
theorem c9_deterministic_witness :
    [webserverProject, siteProject] = [webserverProject, siteProject] ∧
    generate_projects_data "https://gitlab.example.com" scenarioFilters
        [webserverProject, siteProject] =
      generate_projects_data "https://gitlab.example.com" scenarioFilters
        [webserverProject, siteProject] :=
  ⟨rfl, c9_deterministic _ _ _ _ rfl⟩

/-- C10: a dependency entry whose `src` does not match the configured-host
pattern `git@host:path.git` makes `add_dependencies` raise an uncaught
`AttributeError` (the regex match is `None` and `.group(1)` is applied to
it), and the whole build aborts with that error instead of degrading the
entry to external or unknown. -/
theorem c10_unmatched_src_aborts :
    add_dependencies "https://gitlab.example.com" "play1" "play1-7"
        (Yaml.list [Yaml.dict
          [("src",
            Yaml.str "https://github.com/geerlingguy/ansible-role-nginx.git")]])
        [] [] = .error .attrError ∧
    generate_projects_data "https://gitlab.example.com" scenarioFilters
        [githubDepProject] = .error .attrError :=
  ⟨rfl, rfl⟩

end CreateRolesOverview
